import Mathlib

/-!
Shallow embedding of the `core_service` package (session lifecycle state
machine, per-speaker transcription multiplexer, webhook dispatcher) and
proofs of the specification claims about it.

Conventions of the embedding:
* wall-clock time (`time.time()` / `datetime.now()`) is an explicit `Nat`
  parameter, in seconds;
* Python dicts become association lists `List (String × _)` with
  first-match lookup, mutation becomes explicit state passing;
* external I/O (HTTP responses, Deepgram streams) is an explicit oracle
  argument describing the outcome of each interaction;
* Python object identity of stream handles is made observable through a
  `hid` counter stamped on each freshly constructed handler.
-/

namespace CoreService

/-- The `BotState` enum from `schemas.py`. -/
inductive BotState where
  | pending
  | joining
  | inMeeting
  | leaving
  | ended
  | failed
deriving DecidableEq, Repr

/-- ENDED and FAILED are the terminal states. -/
def BotState.isTerminal : BotState → Bool
  | .ended => true
  | .failed => true
  | _ => false

/-- Modelled from the spec: the legal-transition table of §3
(PENDING→JOINING, JOINING→IN_MEETING, JOINING→FAILED, IN_MEETING→LEAVING,
IN_MEETING→FAILED, LEAVING→ENDED, any non-terminal→FAILED).  The source
has no such table; this definition exists only to state the claims that
mention it. -/
def specLegalTransition : BotState → BotState → Bool
  | .pending, .joining => true
  | .joining, .inMeeting => true
  | .inMeeting, .leaving => true
  | .leaving, .ended => true
  | s, .failed => ¬ s.isTerminal
  | _, _ => false

/-! ## Transcription multiplexer (`transcription.py`) -/

/-- One `DeepgramStreamingHandler`: the fields the claims observe.
`hid` models Python object identity (a fresh object gets a fresh id). -/
structure Handler where
  botId : String
  speakerId : String
  speakerName : Option String
  connected : Bool
  lastSendTime : Nat
  hid : Nat
deriving DecidableEq, Repr

/-- A transcription event as passed to `on_transcription_callback` by the
`on_message` closure of `DeepgramStreamingHandler._setup_event_handlers`:
`speaker_id` and `speaker_name` are read from the handler object
(`self.speaker_id`, `self.speaker_name`) at emission time. -/
structure EmittedEvent where
  botId : String
  speakerId : String
  speakerName : Option String
  text : String
  isFinal : Bool
deriving DecidableEq, Repr

/-- The `on_message` closure forwards `self.speaker_name` (the handler
field captured at construction) to the callback. -/
def Handler.emit (h : Handler) (text : String) (isFinal : Bool) : EmittedEvent :=
  { botId := h.botId
    speakerId := h.speakerId
    speakerName := h.speakerName
    text := text
    isFinal := isFinal }

/-- State of `TranscriptionManager`: `_handlers`, `_speaker_names`,
`_last_audio_time`, the configured silence timeout, and the fresh-object
counter. -/
structure TranscriptionManager where
  botId : String
  handlers : List (String × Handler)
  speakerNames : List (String × String)
  lastAudioTime : List (String × Nat)
  silenceTimeoutSeconds : Nat
  nextHid : Nat
deriving DecidableEq, Repr

/-- Python `dict.__setitem__` on an association list: overwrite the value
at an existing key, otherwise append. -/
def dictSet {α : Type} (m : List (String × α)) (k : String) (v : α) :
    List (String × α) :=
  if (m.lookup k).isSome then
    m.map (fun p => if p.1 = k then (p.1, v) else p)
  else
    m ++ [(k, v)]

/-- Python `del d[k]` combined with membership filtering: drop every
binding of `k`. -/
def dictDel {α : Type} (m : List (String × α)) (k : String) :
    List (String × α) :=
  m.filter (fun p => p.1 ≠ k)

/-- The first step of `get_or_create_handler`:
`if speaker_name: self._speaker_names[speaker_id] = speaker_name`
(a `None` or empty name is falsy and is not recorded). -/
def recordSpeakerName (m : TranscriptionManager) (speakerId : String)
    (speakerName : Option String) : TranscriptionManager :=
  match speakerName with
  | some n => if n = "" then m else
      { m with speakerNames := dictSet m.speakerNames speakerId n }
  | none => m

/-- Embedding of `TranscriptionManager.get_or_create_handler`: records a truthy
`speaker_name` in `_speaker_names`, returns the existing handler if one
is registered, otherwise constructs a fresh `DeepgramStreamingHandler`
(speaker name read back from `_speaker_names`), starts it, registers it
and stamps `_last_audio_time`. -/
def getOrCreateHandler (m : TranscriptionManager) (speakerId : String)
    (speakerName : Option String) (now : Nat) :
    Handler × TranscriptionManager :=
  let m := recordSpeakerName m speakerId speakerName
  match m.handlers.lookup speakerId with
  | some h => (h, m)
  | none =>
    let h : Handler :=
      { botId := m.botId
        speakerId := speakerId
        speakerName := m.speakerNames.lookup speakerId
        connected := true
        lastSendTime := now
        hid := m.nextHid }
    (h, { m with
            handlers := dictSet m.handlers speakerId h
            lastAudioTime := dictSet m.lastAudioTime speakerId now
            nextHid := m.nextHid + 1 })

/-- Embedding of `TranscriptionManager.add_audio`: obtain/create the handler, forward
the bytes (`handler.send`, external I/O), stamp `_last_audio_time`. -/
def addAudio (m : TranscriptionManager) (speakerId : String)
    (speakerName : Option String) (now : Nat) :
    Handler × TranscriptionManager :=
  let (h, m) := getOrCreateHandler m speakerId speakerName now
  (h, { m with lastAudioTime := dictSet m.lastAudioTime speakerId now })

/-- Embedding of `TranscriptionManager.cleanup_idle_handlers`: collect the speakers
whose `now - last_time > silence_timeout_seconds`, then close and delete
each from `_handlers` and `_last_audio_time`. -/
def cleanupIdleHandlers (m : TranscriptionManager) (now : Nat) :
    TranscriptionManager :=
  let speakersToRemove :=
    (m.lastAudioTime.filter
      (fun p => m.silenceTimeoutSeconds < now - p.2)).map (·.1)
  { m with
      handlers := speakersToRemove.foldl dictDel m.handlers
      lastAudioTime := speakersToRemove.foldl dictDel m.lastAudioTime }

/-- Embedding of `TranscriptionManager.finish_all`: call `finish()` on every handler
(each close outcome is read from the `closeFails` oracle and any failure
is caught and logged), then clear `_handlers` and `_last_audio_time`
(`_speaker_names` is not cleared). -/
def finishAll (closeFails : Nat → Bool) (m : TranscriptionManager) :
    TranscriptionManager :=
  let _closed := m.handlers.map (fun p => closeFails p.2.hid)
  { m with handlers := [], lastAudioTime := [] }

/-! ## Webhook dispatcher (`webhook_delivery.py`) -/

/-- Result of `urllib.parse.urlparse` restricted to the fields
`_validate_webhook_url` reads: `scheme`, `netloc` and `hostname`
(hostname already lowercased, `""` standing for Python `None`). -/
structure UrlParts where
  scheme : String
  netloc : String
  hostname : String
deriving DecidableEq, Repr

/-- ASCII lowercasing of one character. -/
def charLower (c : Char) : Char :=
  if 'A' ≤ c ∧ c ≤ 'Z' then Char.ofNat (c.toNat + 32) else c

/-- ASCII lowercasing of a character list (`str.lower`). -/
def lowerCL (s : List Char) : List Char :=
  s.map charLower

/-- Tests whether `sep` starts the list `s`. -/
def prefixCL : List Char → List Char → Bool
  | [], _ => true
  | _ :: _, [] => false
  | a :: as, b :: bs => a = b && prefixCL as bs

/-- Split at the first occurrence of the (nonempty) separator `sep`,
returning the parts before and after it, if it occurs. -/
def splitFirstCL (sep : List Char) : List Char → Option (List Char × List Char)
  | [] => none
  | c :: rest =>
    if prefixCL sep (c :: rest) then some ([], (c :: rest).drop sep.length)
    else
      match splitFirstCL sep rest with
      | some (pre, post) => some (c :: pre, post)
      | none => none

/-- Hostname of a netloc, per `urlparse`: drop the `user@` prefix, take
the bracketed part of an IPv6 literal, otherwise drop the `:port`
suffix, and lowercase. -/
def hostOfNetloc (netloc : List Char) : List Char :=
  let hostport :=
    match splitFirstCL ['@'] netloc with
    | some (_, rest) => rest
    | none => netloc
  let host :=
    if prefixCL ['['] hostport then
      match splitFirstCL [']'] (hostport.drop 1) with
      | some (h, _) => h
      | none => hostport.drop 1
    else
      match splitFirstCL [':'] hostport with
      | some (h, _) => h
      | none => hostport
  lowerCL host

/-- Model of `urllib.parse.urlparse` for the URL shapes the dispatcher
sees: a `scheme://netloc/...` URL yields its lowercased scheme, the
netloc up to the next `/`, `?` or `#`, and the hostname extracted from
the netloc; a string without `://` parses with empty scheme and netloc
(as `urlparse` gives for a bare path such as `/no/host`). -/
def urlparse (url : String) : UrlParts :=
  match splitFirstCL [':', '/', '/'] url.data with
  | some (scheme, rest) =>
    let netloc :=
      ((rest.takeWhile (· ≠ '/')).takeWhile (· ≠ '?')).takeWhile (· ≠ '#')
    { scheme := ⟨lowerCL scheme⟩
      netloc := ⟨netloc⟩
      hostname := ⟨hostOfNetloc netloc⟩ }
  | none => { scheme := "", netloc := "", hostname := "" }

/-- Embedding of `_validate_webhook_url`: require the `https` scheme unless
`settings.debug`, require an `http`/`https` scheme and a nonempty
netloc, and reject the blocked hostnames and the `10.` / `192.168.`
private prefixes. -/
def validateWebhookUrl (debug : Bool) (url : String) : Bool :=
  let parsed := urlparse url
  if ¬ debug ∧ parsed.scheme ≠ "https" then false
  else if parsed.scheme ≠ "http" ∧ parsed.scheme ≠ "https" then false
  else if parsed.netloc = "" then false
  else
    let hostname := parsed.hostname
    if hostname = "localhost" ∨ hostname = "127.0.0.1" ∨
        hostname = "0.0.0.0" ∨ hostname = "::1" then false
    else if prefixCL "10.".data hostname.data ∨
        prefixCL "192.168.".data hostname.data then
      false
    else true

/-- Outcome of one HTTP POST attempt inside `deliver_webhook`'s `try`:
a response with some status code, an `httpx.TimeoutException`, an
`httpx.RequestError`, or any other exception — the latter three are all
caught and recorded as `last_error`. -/
inductive AttemptResult where
  | response (status : Nat)
  | timeout
  | requestError
  | otherError
deriving DecidableEq, Repr

/-- An attempt succeeds exactly when it produced a response with
`200 <= status_code < 300`. -/
def attemptSucceeds : AttemptResult → Bool
  | .response status => 200 ≤ status ∧ status < 300
  | _ => false

/-- The retry loop `for attempt in range(retry_count + 1)`: run attempts
from index `start` while `fuel` remains, stopping at the first success.
Returns the overall result and the number of attempts performed. -/
def runAttempts (env : Nat → AttemptResult) (start fuel : Nat) :
    Bool × Nat :=
  match fuel with
  | 0 => (false, 0)
  | fuel + 1 =>
    if attemptSucceeds (env start) then (true, 1)
    else
      let (b, n) := runAttempts env (start + 1) fuel
      (b, n + 1)

/-- Embedding of `deliver_webhook`: validate the URL (returning false with zero
attempts on failure), then POST up to `retry_count + 1` times, the
outcome of the i-th POST given by `env i`.  Returns the boolean result
and the number of POST attempts performed. -/
def deliverWebhook (debug : Bool) (webhookUrl : String) (retryCount : Nat)
    (env : Nat → AttemptResult) : Bool × Nat :=
  if ¬ validateWebhookUrl debug webhookUrl then (false, 0)
  else runAttempts env 0 (retryCount + 1)

/-- Python `{**a, **b}`: start from `a` and set every binding of `b` in
order, later values overwriting earlier ones. -/
def dictMerge {α : Type} (a b : List (String × α)) : List (String × α) :=
  b.foldl (fun m p => dictSet m p.1 p.2) a

/-- Embedding of `BotSession._on_transcription`, the metadata part: the webhook is
sent with `combined_metadata = {**(self.metadata or {}), **(metadata or {})}`
if that dict is nonempty, and with no metadata field otherwise. -/
def combinedWebhookMetadata (sessionMeta eventMeta : Option (List (String × String))) :
    Option (List (String × String)) :=
  let combined := dictMerge (sessionMeta.getD []) (eventMeta.getD [])
  if combined.isEmpty then none else some combined

/-! ## Bot session and registry (`session_manager.py`) -/

/-- The arguments `set_state` passes to `send_bot_status_event`. -/
structure StatusEvent where
  webhookUrl : String
  botId : String
  status : BotState
  message : Option String
  metadata : Option (List (String × String))
deriving DecidableEq, Repr

/-- The `BotSession` record: the fields the claims observe. -/
structure BotSession where
  id : String
  meetingUrl : String
  webhookUrl : String
  state : BotState
  endedAt : Option Nat
  errorMessage : Option String
  metadata : Option (List (String × String))
  transcriptionManager : Option TranscriptionManager
  stopRequested : Bool
deriving DecidableEq, Repr

/-- Embedding of `BotSession.set_state`: assign the new state, on ENDED/FAILED set
`ended_at := now`, on FAILED record `message` as the error, then send a
status webhook.  Returns the updated session and the status event. -/
def setState (s : BotSession) (state : BotState) (message : Option String)
    (now : Nat) : BotSession × StatusEvent :=
  let s := { s with state := state }
  let s :=
    if state = BotState.ended ∨ state = BotState.failed then
      { s with endedAt := some now }
    else s
  let s :=
    if state = BotState.failed then { s with errorMessage := message }
    else s
  (s, { webhookUrl := s.webhookUrl
        botId := s.id
        status := state
        message := message
        metadata := s.metadata })

/-- Embedding of `BotSession.cleanup`: if a transcription manager exists, `finish_all`
it and drop it; mark the session stop-requested. -/
def cleanup (closeFails : Nat → Bool) (s : BotSession) : BotSession :=
  let s :=
    match s.transcriptionManager with
    | some tm =>
      let _ := finishAll closeFails tm
      { s with transcriptionManager := none }
    | none => s
  { s with stopRequested := true }

/-- The observable actions `end_session` performs on the session, in
order. -/
inductive SessionAction where
  | cleanupAction
  | setStateAction (state : BotState) (message : Option String)
deriving DecidableEq, Repr

/-- The registry `SessionManager._sessions`: id → session. -/
abbrev Registry := List (String × BotSession)

/-- Embedding of `SessionManager.get_session`. -/
def getSession (reg : Registry) (sessionId : String) : Option BotSession :=
  List.lookup sessionId reg

/-- In-place mutation of the session object the registry holds: rebind
`sessionId` to the mutated session. -/
def registryWrite (reg : Registry) (sessionId : String) (s : BotSession) :
    Registry :=
  (reg : List (String × BotSession)).map
    (fun p => if p.1 = sessionId then (p.1, s) else p)

/-- Embedding of `SessionManager.end_session`: look the session up; if absent return
`None` leaving the registry untouched; otherwise run `cleanup()` then
`set_state(ENDED, "Session ended by request")` and return the session,
which stays registered.  The third component records the actions
performed on the session, in order. -/
def endSession (closeFails : Nat → Bool) (reg : Registry)
    (sessionId : String) (now : Nat) :
    Option BotSession × Registry × List SessionAction :=
  match getSession reg sessionId with
  | none => (none, reg, [])
  | some s =>
    let s1 := cleanup closeFails s
    let s2 := (setState s1 BotState.ended (some "Session ended by request") now).1
    (some s2, registryWrite reg sessionId s2,
      [SessionAction.cleanupAction,
       SessionAction.setStateAction BotState.ended (some "Session ended by request")])

/-! ## Concrete objects used by witnesses and counterexamples -/

/-- A session sitting in the terminal state ENDED with its end timestamp
recorded, used as concrete input by several claims. -/
def exampleSessionEnded : BotSession :=
  { id := "bot_1"
    meetingUrl := "https://teams.microsoft.com/l/meetup-join/abc"
    webhookUrl := "https://example.com/webhook"
    state := BotState.ended
    endedAt := some 10
    errorMessage := none
    metadata := none
    transcriptionManager := none
    stopRequested := false }

/-- A freshly constructed transcription manager with no handlers and the
silence timeout configured to 5 seconds. -/
def exampleManager : TranscriptionManager :=
  { botId := "bot_1"
    handlers := []
    speakerNames := []
    lastAudioTime := []
    silenceTimeoutSeconds := 5
    nextHid := 0 }

/-- A live handler for speaker `s1` created before any name was known. -/
def exampleHandler : Handler :=
  { botId := "bot_1"
    speakerId := "s1"
    speakerName := none
    connected := true
    lastSendTime := 0
    hid := 0 }

/-- A manager already holding the live handler for `s1`. -/
def exampleManagerS1 : TranscriptionManager :=
  { botId := "bot_1"
    handlers := [("s1", exampleHandler)]
    speakerNames := []
    lastAudioTime := [("s1", 0)]
    silenceTimeoutSeconds := 5
    nextHid := 1 }

/-! ## Association-list lemmas shared by the claim proofs -/

theorem lookup_cons_eq {α : Type} (k : String) (p : String × α)
    (tl : List (String × α)) (h : k = p.1) :
    List.lookup k (p :: tl) = some p.2 := by
  subst h
  simp [List.lookup]

theorem lookup_cons_ne {α : Type} (k : String) (p : String × α)
    (tl : List (String × α)) (h : ¬ k = p.1) :
    List.lookup k (p :: tl) = List.lookup k tl := by
  have hb : (k == p.1) = false := beq_eq_false_iff_ne.mpr h
  simp [List.lookup, hb]

theorem lookup_eq_none_of_not_mem_keys {α : Type} (l : List (String × α))
    (k : String) (h : k ∉ l.map Prod.fst) : l.lookup k = none := by
  induction l with
  | nil => rfl
  | cons p tl ih =>
    simp only [List.map_cons, List.mem_cons] at h
    push_neg at h
    rw [lookup_cons_ne k p tl h.1]
    exact ih h.2

theorem mem_of_lookup_eq_some {α : Type} {l : List (String × α)}
    {k : String} {v : α} (h : l.lookup k = some v) : (k, v) ∈ l := by
  induction l with
  | nil => cases h
  | cons p tl ih =>
    by_cases hk : k = p.1
    · rw [lookup_cons_eq k p tl hk] at h
      cases h
      rw [hk]
      exact List.mem_cons_self _ _
    · rw [lookup_cons_ne k p tl hk] at h
      exact List.mem_cons_of_mem _ (ih h)

theorem lookup_map_overwrite {α : Type} (l : List (String × α))
    (k : String) (v : α) (hs : (l.lookup k).isSome) :
    (l.map (fun p => if p.1 = k then (p.1, v) else p)).lookup k = some v := by
  induction l with
  | nil => cases hs
  | cons p tl ih =>
    by_cases hk : k = p.1
    · have hpk : p.1 = k := hk.symm
      simp only [List.map_cons, if_pos hpk]
      exact lookup_cons_eq k (p.1, v) _ hk
    · have hpk : ¬ p.1 = k := fun hh => hk hh.symm
      rw [lookup_cons_ne k p tl hk] at hs
      simp only [List.map_cons, if_neg hpk]
      rw [lookup_cons_ne k p _ hk]
      exact ih hs

theorem lookup_append_right {α : Type} (l l' : List (String × α))
    (k : String) (h : l.lookup k = none) :
    (l ++ l').lookup k = l'.lookup k := by
  induction l with
  | nil => rfl
  | cons p tl ih =>
    by_cases hk : k = p.1
    · rw [lookup_cons_eq k p tl hk] at h
      cases h
    · rw [lookup_cons_ne k p tl hk] at h
      rw [List.cons_append, lookup_cons_ne k p _ hk]
      exact ih h

theorem lookup_isSome_ne_none {α : Type} {m : List (String × α)} {k : String}
    (hs : ¬ (m.lookup k).isSome = true) : m.lookup k = none := by
  cases h : m.lookup k
  · rfl
  · rw [h] at hs
    cases hs rfl

theorem lookup_dictSet_self {α : Type} (m : List (String × α))
    (k : String) (v : α) : (dictSet m k v).lookup k = some v := by
  unfold dictSet
  by_cases hs : (m.lookup k).isSome
  · rw [if_pos hs]
    exact lookup_map_overwrite m k v hs
  · rw [if_neg hs]
    rw [lookup_append_right m _ k (lookup_isSome_ne_none hs)]
    exact lookup_cons_eq k (k, v) [] rfl

theorem lookup_map_overwrite_ne {α : Type} (l : List (String × α))
    (k k' : String) (v : α) (h : k ≠ k') :
    (l.map (fun p => if p.1 = k' then (p.1, v) else p)).lookup k =
      l.lookup k := by
  induction l with
  | nil => rfl
  | cons p tl ih =>
    by_cases hpk : p.1 = k'
    · have hk : ¬ k = p.1 := fun hh => h (hh.trans hpk)
      simp only [List.map_cons, if_pos hpk]
      rw [lookup_cons_ne k (p.1, v) _ hk, lookup_cons_ne k p tl hk]
      exact ih
    · simp only [List.map_cons, if_neg hpk]
      by_cases hk : k = p.1
      · rw [lookup_cons_eq k p _ hk, lookup_cons_eq k p tl hk]
      · rw [lookup_cons_ne k p _ hk, lookup_cons_ne k p tl hk]
        exact ih

theorem lookup_append_single_ne {α : Type} (l : List (String × α))
    (k k' : String) (v : α) (h : k ≠ k') :
    (l ++ [(k', v)]).lookup k = l.lookup k := by
  induction l with
  | nil =>
    rw [List.nil_append, lookup_cons_ne k (k', v) [] h]
  | cons p tl ih =>
    by_cases hk : k = p.1
    · rw [List.cons_append, lookup_cons_eq k p _ hk, lookup_cons_eq k p tl hk]
    · rw [List.cons_append, lookup_cons_ne k p _ hk, lookup_cons_ne k p tl hk]
      exact ih

theorem lookup_dictSet_ne {α : Type} (m : List (String × α))
    (k k' : String) (v : α) (h : k ≠ k') :
    (dictSet m k' v).lookup k = m.lookup k := by
  unfold dictSet
  by_cases hs : (m.lookup k').isSome
  · rw [if_pos hs]
    exact lookup_map_overwrite_ne m k k' v h
  · rw [if_neg hs]
    exact lookup_append_single_ne m k k' v h

theorem lookup_dictDel_self {α : Type} (m : List (String × α)) (k : String) :
    (dictDel m k).lookup k = none := by
  induction m with
  | nil => rfl
  | cons p tl ih =>
    unfold dictDel at ih ⊢
    by_cases hk : p.1 = k
    · rw [List.filter_cons_of_neg (by simp [hk])]
      exact ih
    · rw [List.filter_cons_of_pos (by simp [hk]),
        lookup_cons_ne k p _ (fun hh => hk hh.symm)]
      exact ih

theorem lookup_dictDel_none {α : Type} (m : List (String × α)) (k k' : String)
    (h : m.lookup k = none) : (dictDel m k').lookup k = none := by
  induction m with
  | nil => rfl
  | cons p tl ih =>
    by_cases hk : k = p.1
    · rw [lookup_cons_eq k p tl hk] at h
      cases h
    · rw [lookup_cons_ne k p tl hk] at h
      unfold dictDel at ih ⊢
      by_cases hp : p.1 = k'
      · rw [List.filter_cons_of_neg (by simp [hp])]
        exact ih h
      · rw [List.filter_cons_of_pos (by simp [hp]), lookup_cons_ne k p _ hk]
        exact ih h

theorem lookup_foldl_dictDel_none {α : Type} (l : List String)
    (m : List (String × α)) (k : String) (h : m.lookup k = none) :
    (l.foldl dictDel m).lookup k = none := by
  induction l generalizing m with
  | nil => exact h
  | cons a tl ih =>
    exact ih (dictDel m a) (lookup_dictDel_none m k a h)

theorem lookup_foldl_dictDel_of_mem {α : Type} (l : List String)
    (m : List (String × α)) (k : String) (h : k ∈ l) :
    (l.foldl dictDel m).lookup k = none := by
  induction l generalizing m with
  | nil => cases h
  | cons a tl ih =>
    rcases List.mem_cons.mp h with h | h
    · subst h
      exact lookup_foldl_dictDel_none tl (dictDel m k) k
        (lookup_dictDel_self m k)
    · exact ih (dictDel m a) h

theorem lookup_dictMerge {α : Type} (a b : List (String × α)) (k : String)
    (hnodup : (b.map Prod.fst).Nodup) :
    (dictMerge a b).lookup k = (b.lookup k).orElse (fun _ => a.lookup k) := by
  induction b generalizing a with
  | nil => rfl
  | cons p tl ih =>
    simp only [List.map_cons, List.nodup_cons] at hnodup
    unfold dictMerge at ih ⊢
    rw [List.foldl_cons]
    by_cases hk : k = p.1
    · rw [ih (dictSet a p.1 p.2) hnodup.2, lookup_cons_eq k p tl hk,
        lookup_eq_none_of_not_mem_keys tl k (hk ▸ hnodup.1), hk,
        lookup_dictSet_self a p.1 p.2]
      rfl
    · rw [ih (dictSet a p.1 p.2) hnodup.2, lookup_cons_ne k p tl hk,
        lookup_dictSet_ne a k p.1 p.2 hk]

theorem runAttempts_all_fail (env : Nat → AttemptResult)
    (h : ∀ i, attemptSucceeds (env i) = false) :
    ∀ fuel start, runAttempts env start fuel = (false, fuel) := by
  intro fuel
  induction fuel with
  | zero => intro start; rfl
  | succ n ih =>
    intro start
    unfold runAttempts
    rw [if_neg (by rw [h start]; exact fun hh => Bool.false_ne_true hh), ih]

theorem recordSpeakerName_handlers (m : TranscriptionManager)
    (sid : String) (name : Option String) :
    (recordSpeakerName m sid name).handlers = m.handlers := by
  cases name with
  | none => rfl
  | some n =>
    by_cases h : n = "" <;> simp [recordSpeakerName, h]

theorem recordSpeakerName_lastAudioTime (m : TranscriptionManager)
    (sid : String) (name : Option String) :
    (recordSpeakerName m sid name).lastAudioTime = m.lastAudioTime := by
  cases name with
  | none => rfl
  | some n =>
    by_cases h : n = "" <;> simp [recordSpeakerName, h]

theorem recordSpeakerName_nextHid (m : TranscriptionManager)
    (sid : String) (name : Option String) :
    (recordSpeakerName m sid name).nextHid = m.nextHid := by
  cases name with
  | none => rfl
  | some n =>
    by_cases h : n = "" <;> simp [recordSpeakerName, h]

theorem recordSpeakerName_silenceTimeout (m : TranscriptionManager)
    (sid : String) (name : Option String) :
    (recordSpeakerName m sid name).silenceTimeoutSeconds =
      m.silenceTimeoutSeconds := by
  cases name with
  | none => rfl
  | some n =>
    by_cases h : n = "" <;> simp [recordSpeakerName, h]

theorem getOrCreate_fresh (m : TranscriptionManager) (sid : String)
    (name : Option String) (now : Nat)
    (hfresh : m.handlers.lookup sid = none) :
    (getOrCreateHandler m sid name now).1.hid = m.nextHid ∧
    (getOrCreateHandler m sid name now).2.nextHid = m.nextHid + 1 ∧
    (getOrCreateHandler m sid name now).2.lastAudioTime.lookup sid =
      some now ∧
    (getOrCreateHandler m sid name now).2.silenceTimeoutSeconds =
      m.silenceTimeoutSeconds := by
  simp only [getOrCreateHandler]
  rw [recordSpeakerName_handlers m sid name, hfresh]
  simp [recordSpeakerName_nextHid, recordSpeakerName_lastAudioTime,
    recordSpeakerName_silenceTimeout, lookup_dictSet_self]

theorem addAudio_fst (m : TranscriptionManager) (sid : String)
    (name : Option String) (now : Nat) :
    (addAudio m sid name now).1 = (getOrCreateHandler m sid name now).1 := by
  unfold addAudio
  rfl

theorem cleanupIdleHandlers_nextHid (m : TranscriptionManager) (now : Nat) :
    (cleanupIdleHandlers m now).nextHid = m.nextHid := rfl

/-! ## Claim theorems -/

/-- C1 (counterexample): ENDED→PENDING is not in the transition table,
ENDED is terminal and differs from PENDING, yet `set_state(PENDING)` on a
session in ENDED does change the session's state — `set_state` performs
no transition validation. -/
theorem setState_ignores_table_cex :
    specLegalTransition BotState.ended BotState.pending = false ∧
    BotState.isTerminal BotState.ended = true ∧
    exampleSessionEnded.state = BotState.ended ∧
    (setState exampleSessionEnded BotState.pending none 11).1.state =
      BotState.pending ∧
    (setState exampleSessionEnded BotState.pending none 11).1.state ≠
      exampleSessionEnded.state := by
  decide

/-- C1 (amended): `set_state` performs no validation against the
transition table: for every session, requested state, message and time,
the session's state after the call is the requested state. -/
theorem setState_always_assigns (s : BotSession) (t : BotState)
    (msg : Option String) (now : Nat) :
    (setState s t msg now).1.state = t := by
  cases t <;> rfl

/-- C2 (counterexample): a session already in ENDED with `ended_at = 10`
receives a second terminal `set_state(ENDED)` at time 11, and `ended_at`
is overwritten to 11 — it is not written exactly once. -/
theorem setState_endedAt_overwritten_cex :
    BotState.isTerminal exampleSessionEnded.state = true ∧
    exampleSessionEnded.endedAt = some 10 ∧
    (setState exampleSessionEnded BotState.ended none 11).1.endedAt =
      some 11 ∧
    (setState exampleSessionEnded BotState.ended none 11).1.endedAt ≠
      exampleSessionEnded.endedAt := by
  decide

/-- C2 (amended): every invocation of `set_state` with a terminal target
state sets `ended_at` to the current time, overwriting any previously
recorded value. -/
theorem setState_terminal_stamps_endedAt (s : BotSession) (t : BotState)
    (msg : Option String) (now : Nat) (h : t.isTerminal = true) :
    (setState s t msg now).1.endedAt = some now := by
  cases t <;> first | rfl | exact absurd h (by decide)

/-- Witness for `setState_terminal_stamps_endedAt` at a concrete input. -/
theorem setState_terminal_stamps_endedAt_witness :
    BotState.isTerminal BotState.ended = true ∧
    (setState exampleSessionEnded BotState.ended none 11).1.endedAt =
      some 11 :=
  ⟨by decide,
   setState_terminal_stamps_endedAt exampleSessionEnded BotState.ended
     none 11 (by decide)⟩

/-- C3: with a valid webhook URL and retry count `n`, `deliver_webhook`
performs exactly `n + 1` POST attempts and returns false when every
attempt fails, and performs exactly 1 attempt and returns true when the
first attempt yields a 2xx response. -/
theorem deliverWebhook_attempt_count (debug : Bool) (url : String)
    (n : Nat) (env : Nat → AttemptResult)
    (hv : validateWebhookUrl debug url = true) :
    ((∀ i, attemptSucceeds (env i) = false) →
      deliverWebhook debug url n env = (false, n + 1)) ∧
    (attemptSucceeds (env 0) = true →
      deliverWebhook debug url n env = (true, 1)) := by
  constructor
  · intro hfail
    simp only [deliverWebhook, hv, not_true, if_false]
    exact runAttempts_all_fail env hfail (n + 1) 0
  · intro hsucc
    simp only [deliverWebhook, hv, not_true, if_false, runAttempts,
      hsucc, if_true]

/-- Witness for `deliverWebhook_attempt_count` at concrete inputs. -/
theorem deliverWebhook_attempt_count_witness :
    deliverWebhook false "https://example.com/x" 2
      (fun _ => AttemptResult.timeout) = (false, 3) ∧
    deliverWebhook false "https://example.com/x" 2
      (fun _ => AttemptResult.response 204) = (true, 1) :=
  ⟨(deliverWebhook_attempt_count false "https://example.com/x" 2
      (fun _ => AttemptResult.timeout) (by decide)).1 (fun _ => rfl),
   (deliverWebhook_attempt_count false "https://example.com/x" 2
      (fun _ => AttemptResult.response 204) (by decide)).2 (by decide)⟩

/-- C4: the validator accepts `https://example.com/x`, accepts
`http://example.com/x` only in debug mode, and rejects the loopback,
private-network, non-http-scheme and hostless URLs for both settings of
the debug flag. -/
theorem validateWebhookUrl_cases :
    validateWebhookUrl false "https://example.com/x" = true ∧
    validateWebhookUrl true "https://example.com/x" = true ∧
    validateWebhookUrl false "http://example.com/x" = false ∧
    validateWebhookUrl true "http://example.com/x" = true ∧
    (∀ d : Bool, validateWebhookUrl d "https://localhost/x" = false) ∧
    (∀ d : Bool, validateWebhookUrl d "https://127.0.0.1/x" = false) ∧
    (∀ d : Bool, validateWebhookUrl d "https://192.168.1.1/x" = false) ∧
    (∀ d : Bool, validateWebhookUrl d "ftp://example.com/x" = false) ∧
    (∀ d : Bool, validateWebhookUrl d "/no/host" = false) := by
  decide

/-- C5: the function `deliver_webhook` is total and boolean-valued — every
exceptional path of the source is absorbed into an `AttemptResult` and
caught.  When URL validation fails it returns false having performed
zero POST attempts; when every attempt fails (any mix of non-2xx
responses, timeouts and network errors) it returns false rather than
raising. -/
theorem deliverWebhook_total (debug : Bool) (url : String) (n : Nat)
    (env : Nat → AttemptResult) :
    (validateWebhookUrl debug url = false →
      deliverWebhook debug url n env = (false, 0)) ∧
    ((∀ i, attemptSucceeds (env i) = false) →
      (deliverWebhook debug url n env).1 = false) := by
  constructor
  · intro hv
    simp [deliverWebhook, hv]
  · intro hfail
    cases hv : validateWebhookUrl debug url
    · simp [deliverWebhook, hv]
    · simp only [deliverWebhook, hv, not_true, if_false]
      rw [runAttempts_all_fail env hfail (n + 1) 0]

/-- Witness for `deliverWebhook_total` at concrete inputs: a hostless
URL is rejected with zero attempts, and a mix of a 500 response, a
timeout and a network error exhausts the attempts and yields false. -/
theorem deliverWebhook_total_witness :
    deliverWebhook false "/no/host" 3
      (fun _ => AttemptResult.requestError) = (false, 0) ∧
    (deliverWebhook false "https://example.com/x" 2
      (fun i => if i = 0 then AttemptResult.response 500
                else if i = 1 then AttemptResult.timeout
                else AttemptResult.requestError)).1 = false :=
  ⟨(deliverWebhook_total false "/no/host" 3
      (fun _ => AttemptResult.requestError)).1 (by decide),
   (deliverWebhook_total false "https://example.com/x" 2
      (fun i => if i = 0 then AttemptResult.response 500
                else if i = 1 then AttemptResult.timeout
                else AttemptResult.requestError)).2
     (fun i => by
       by_cases h0 : i = 0
       · rw [if_pos h0]
         decide
       · rw [if_neg h0]
         by_cases h1 : i = 1
         · rw [if_pos h1]
           rfl
         · rw [if_neg h1]
           rfl)⟩

/-- C6: with the silence timeout configured to 5 seconds, a speaker
handle created at t = 0 that receives no further audio is evicted from
both the handler map and the last-activity map by
`cleanup_idle_handlers` run at any t ≥ 6, and a subsequent `add_audio`
for the same speaker constructs a fresh handler object (a new `hid`)
rather than reusing the evicted one. -/
theorem idleHandlerEvicted (m : TranscriptionManager) (sid : String)
    (name1 name2 : Option String) (t t2 : Nat)
    (htimeout : m.silenceTimeoutSeconds = 5)
    (hfresh : m.handlers.lookup sid = none)
    (ht : 6 ≤ t) :
    (cleanupIdleHandlers (getOrCreateHandler m sid name1 0).2
        t).handlers.lookup sid = none ∧
    (cleanupIdleHandlers (getOrCreateHandler m sid name1 0).2
        t).lastAudioTime.lookup sid = none ∧
    (addAudio (cleanupIdleHandlers (getOrCreateHandler m sid name1 0).2 t)
        sid name2 t2).1.hid ≠
      (getOrCreateHandler m sid name1 0).1.hid := by
  obtain ⟨h1, h2, h3, h4⟩ := getOrCreate_fresh m sid name1 0 hfresh
  set m0 := (getOrCreateHandler m sid name1 0).2 with hm0
  have hmem : (sid, 0) ∈ m0.lastAudioTime := mem_of_lookup_eq_some h3
  have hp : decide (m0.silenceTimeoutSeconds < t - 0) = true := by
    rw [h4, htimeout]
    exact decide_eq_true (by omega)
  have hrem : sid ∈ (m0.lastAudioTime.filter
      (fun p => m0.silenceTimeoutSeconds < t - p.2)).map (·.1) := by
    exact List.mem_map.mpr ⟨(sid, 0), List.mem_filter.mpr ⟨hmem, hp⟩, rfl⟩
  have hclean1 : (cleanupIdleHandlers m0 t).handlers.lookup sid = none := by
    simp only [cleanupIdleHandlers]
    exact lookup_foldl_dictDel_of_mem _ _ _ hrem
  have hclean2 : (cleanupIdleHandlers m0 t).lastAudioTime.lookup sid = none := by
    simp only [cleanupIdleHandlers]
    exact lookup_foldl_dictDel_of_mem _ _ _ hrem
  refine ⟨hclean1, hclean2, ?_⟩
  rw [addAudio_fst]
  have h5 := (getOrCreate_fresh (cleanupIdleHandlers m0 t) sid name2 t2
    hclean1).1
  rw [h5, cleanupIdleHandlers_nextHid, h2, h1]
  omega

/-- Witness for `idleHandlerEvicted` at a concrete input: the empty
manager, speaker `s1` created at t = 0, cleanup at t = 6, new audio at
t = 7. -/
theorem idleHandlerEvicted_witness :
    (cleanupIdleHandlers
        (getOrCreateHandler exampleManager "s1" (some "Alice") 0).2
        6).handlers.lookup "s1" = none ∧
    (addAudio (cleanupIdleHandlers
        (getOrCreateHandler exampleManager "s1" (some "Alice") 0).2 6)
        "s1" none 7).1.hid ≠
      (getOrCreateHandler exampleManager "s1" (some "Alice") 0).1.hid :=
  ⟨(idleHandlerEvicted exampleManager "s1" (some "Alice") none 6 7 rfl rfl
      (by decide)).1,
   (idleHandlerEvicted exampleManager "s1" (some "Alice") none 6 7 rfl rfl
      (by decide)).2.2⟩

/-- Rebinding an id that is present in the registry makes a later lookup
of that id return the new session. -/
theorem getSession_registryWrite_self (reg : Registry) (sid : String)
    (s s2 : BotSession) (h : getSession reg sid = some s) :
    getSession (registryWrite reg sid s2) sid = some s2 := by
  induction reg with
  | nil => cases h
  | cons p tl ih =>
    by_cases hk : sid = p.1
    · unfold registryWrite
      rw [List.map_cons, if_pos hk.symm]
      exact lookup_cons_eq sid (p.1, s2) _ hk
    · unfold getSession at h
      rw [lookup_cons_ne sid p tl hk] at h
      unfold registryWrite
      rw [List.map_cons, if_neg (fun hh => hk hh.symm)]
      unfold getSession
      rw [lookup_cons_ne sid p _ hk]
      exact ih h

/-- C7: for a registered session id, `end_session` runs `cleanup()` and
then `set_state(ENDED, "Session ended by request")` in that order,
returns the resulting session, and the session is still found by a later
`get_session` with the same id; for an unknown id it returns `None` and
leaves the registry untouched. -/
theorem endSession_spec (cf : Nat → Bool) (reg : Registry) (sid : String)
    (now : Nat) :
    (∀ s, getSession reg sid = some s →
      endSession cf reg sid now =
        (some (setState (cleanup cf s) BotState.ended
            (some "Session ended by request") now).1,
         registryWrite reg sid (setState (cleanup cf s) BotState.ended
            (some "Session ended by request") now).1,
         [SessionAction.cleanupAction,
          SessionAction.setStateAction BotState.ended
            (some "Session ended by request")]) ∧
      getSession (endSession cf reg sid now).2.1 sid =
        some (setState (cleanup cf s) BotState.ended
          (some "Session ended by request") now).1) ∧
    (getSession reg sid = none →
      endSession cf reg sid now = (none, reg, [])) := by
  constructor
  · intro s hs
    have he : endSession cf reg sid now =
        (some (setState (cleanup cf s) BotState.ended
            (some "Session ended by request") now).1,
         registryWrite reg sid (setState (cleanup cf s) BotState.ended
            (some "Session ended by request") now).1,
         [SessionAction.cleanupAction,
          SessionAction.setStateAction BotState.ended
            (some "Session ended by request")]) := by
      unfold endSession
      rw [hs]
    refine ⟨he, ?_⟩
    rw [he]
    exact getSession_registryWrite_self reg sid s _ hs
  · intro hs
    unfold endSession
    rw [hs]

/-- Witness for `endSession_spec` at a concrete input: a one-session
registry; after `end_session` the session is still registered, and an
unknown id changes nothing. -/
theorem endSession_spec_witness :
    getSession
        (endSession (fun _ => false) [("bot_1", exampleSessionEnded)]
          "bot_1" 12).2.1 "bot_1" =
      some (setState (cleanup (fun _ => false) exampleSessionEnded)
        BotState.ended (some "Session ended by request") 12).1 ∧
    endSession (fun _ => false) [("bot_1", exampleSessionEnded)] "bot_x" 12 =
      (none, [("bot_1", exampleSessionEnded)], []) :=
  ⟨((endSession_spec (fun _ => false) [("bot_1", exampleSessionEnded)]
      "bot_1" 12).1 exampleSessionEnded rfl).2,
   (endSession_spec (fun _ => false) [("bot_1", exampleSessionEnded)]
      "bot_x" 12).2 (by decide)⟩

/-- C8: `finish_all` closes every registered handler — its result is the
same whatever the close-failure oracle says, which is the model of
swallowing individual close exceptions — and clears `_handlers` and
`_last_audio_time`; it is idempotent, and on a multiplexer whose two
cleared maps are already empty it changes nothing. -/
theorem finishAll_spec (cf : Nat → Bool) (m : TranscriptionManager) :
    finishAll cf m = { m with handlers := [], lastAudioTime := [] } ∧
    (∀ cf2 : Nat → Bool, finishAll cf2 (finishAll cf m) = finishAll cf m) ∧
    (m.handlers = [] → m.lastAudioTime = [] → finishAll cf m = m) := by
  refine ⟨rfl, fun cf2 => rfl, ?_⟩
  intro h1 h2
  cases m with
  | mk bid hs sn lat sts nh =>
    simp only at h1 h2
    rw [show finishAll cf ⟨bid, hs, sn, lat, sts, nh⟩ =
      ⟨bid, [], sn, [], sts, nh⟩ from rfl, h1, h2]

/-- Witness for `finishAll_spec` at a concrete input: on the empty
manager `finish_all` is a no-op, and a second call right after a first
one changes nothing. -/
theorem finishAll_spec_witness :
    finishAll (fun _ => true) exampleManager = exampleManager ∧
    finishAll (fun _ => false) (finishAll (fun _ => true) exampleManager) =
      finishAll (fun _ => true) exampleManager :=
  ⟨(finishAll_spec (fun _ => true) exampleManager).2.2 rfl rfl,
   (finishAll_spec (fun _ => true) exampleManager).2.1 (fun _ => false)⟩

/-- Setting a key never yields the empty dict. -/
theorem dictSet_ne_nil {α : Type} (m : List (String × α)) (k : String)
    (v : α) : dictSet m k v ≠ [] := by
  unfold dictSet
  by_cases hs : (m.lookup k).isSome
  · rw [if_pos hs]
    cases m with
    | nil => cases hs
    | cons p tl => simp
  · rw [if_neg hs]
    simp

/-- The Python merge `{**a, **b}` is empty exactly when both dicts
are. -/
theorem dictMerge_eq_nil_iff {α : Type} (a b : List (String × α)) :
    dictMerge a b = [] ↔ a = [] ∧ b = [] := by
  induction b generalizing a with
  | nil => exact ⟨fun h => ⟨h, rfl⟩, fun h => h.1⟩
  | cons p tl ih =>
    constructor
    · intro h
      unfold dictMerge at h
      rw [List.foldl_cons] at h
      have := (ih (dictSet a p.1 p.2)).mp h
      exact absurd this.1 (dictSet_ne_nil a p.1 p.2)
    · intro h
      cases h.2

/-- C9: the metadata sent with a transcription webhook is the key-wise
union of the session metadata and the event metadata with the
event-level value winning on collision, and the metadata field is
omitted (None) exactly when that union is empty. -/
theorem combinedWebhookMetadata_spec
    (sm em : Option (List (String × String)))
    (hnodup : ((em.getD []).map Prod.fst).Nodup) :
    (∀ k, ((combinedWebhookMetadata sm em).getD []).lookup k =
      ((em.getD []).lookup k).orElse (fun _ => (sm.getD []).lookup k)) ∧
    (combinedWebhookMetadata sm em = none ↔
      sm.getD [] = [] ∧ em.getD [] = []) := by
  constructor
  · intro k
    unfold combinedWebhookMetadata
    by_cases hc : (dictMerge (sm.getD []) (em.getD [])).isEmpty
    · rw [if_pos hc]
      have hnil : dictMerge (sm.getD []) (em.getD []) = [] := by
        cases h : dictMerge (sm.getD []) (em.getD [])
        · rfl
        · rw [h] at hc
          cases hc
      obtain ⟨ha, hb⟩ := (dictMerge_eq_nil_iff _ _).mp hnil
      rw [hb, ha]
      rfl
    · rw [if_neg hc]
      exact lookup_dictMerge (sm.getD []) (em.getD []) k hnodup
  · unfold combinedWebhookMetadata
    constructor
    · intro h
      by_cases hc : (dictMerge (sm.getD []) (em.getD [])).isEmpty
      · have hnil : dictMerge (sm.getD []) (em.getD []) = [] := by
          cases hh : dictMerge (sm.getD []) (em.getD [])
          · rfl
          · rw [hh] at hc
            cases hc
        exact (dictMerge_eq_nil_iff _ _).mp hnil
      · rw [if_neg hc] at h
        cases h
    · intro h
      rw [h.1, h.2]
      rfl

/-- Witness for `combinedWebhookMetadata_spec` at a concrete input:
session metadata `{a: 1, b: 2}` merged with event metadata `{b: 3}`
yields the event value for the colliding key `b`. -/
theorem combinedWebhookMetadata_spec_witness :
    ((combinedWebhookMetadata (some [("a", "1"), ("b", "2")])
        (some [("b", "3")])).getD []).lookup "b" =
      (([("b", "3")] : List (String × String)).lookup "b").orElse
        (fun _ => ([("a", "1"), ("b", "2")] :
          List (String × String)).lookup "b") :=
  (combinedWebhookMetadata_spec (some [("a", "1"), ("b", "2")])
    (some [("b", "3")]) (by decide)).1 "b"

/-- C10: when a live handler already exists for a speaker, calling
`get_or_create_handler` with a newly supplied (truthy) name records the
name in `_speaker_names` but returns the existing handler object with
its `speaker_name` field unchanged, so events emitted through that
handler still carry the name captured at creation; `add_audio` routes to
the same unchanged handler. -/
theorem getOrCreate_existing_handler (m : TranscriptionManager)
    (sid n : String) (h : Handler) (now : Nat)
    (hn : ¬ n = "")
    (hh : m.handlers.lookup sid = some h) :
    (getOrCreateHandler m sid (some n) now).1 = h ∧
    (getOrCreateHandler m sid (some n) now).2.handlers = m.handlers ∧
    (getOrCreateHandler m sid (some n) now).2.speakerNames.lookup sid =
      some n ∧
    (addAudio m sid (some n) now).1 = h ∧
    (∀ text fin,
      ((getOrCreateHandler m sid (some n) now).1.emit text fin).speakerName =
        h.speakerName) := by
  have hrec : recordSpeakerName m sid (some n) =
      { m with speakerNames := dictSet m.speakerNames sid n } := by
    simp [recordSpeakerName, hn]
  have hmain : getOrCreateHandler m sid (some n) now =
      (h, { m with speakerNames := dictSet m.speakerNames sid n }) := by
    simp only [getOrCreateHandler, hrec]
    rw [show ({ m with speakerNames := dictSet m.speakerNames sid n } :
        TranscriptionManager).handlers = m.handlers from rfl, hh]
  refine ⟨by rw [hmain], by rw [hmain], ?_, ?_, ?_⟩
  · rw [hmain]
    exact lookup_dictSet_self _ _ _
  · rw [addAudio_fst, hmain]
  · intro text fin
    rw [hmain]
    rfl

/-- Witness for `getOrCreate_existing_handler` at a concrete input: the
manager already holding the nameless `s1` handler receives the name
`Alice`; the handler object is returned unchanged while the name map
records `Alice`, and an emitted event still carries no name. -/
theorem getOrCreate_existing_handler_witness :
    (getOrCreateHandler exampleManagerS1 "s1" (some "Alice") 3).1 =
      exampleHandler ∧
    (getOrCreateHandler exampleManagerS1 "s1"
        (some "Alice") 3).2.speakerNames.lookup "s1" = some "Alice" ∧
    ((getOrCreateHandler exampleManagerS1 "s1" (some "Alice") 3).1.emit
        "hello" true).speakerName = exampleHandler.speakerName :=
  ⟨(getOrCreate_existing_handler exampleManagerS1 "s1" "Alice"
      exampleHandler 3 (by decide) rfl).1,
   (getOrCreate_existing_handler exampleManagerS1 "s1" "Alice"
      exampleHandler 3 (by decide) rfl).2.2.1,
   (getOrCreate_existing_handler exampleManagerS1 "s1" "Alice"
      exampleHandler 3 (by decide) rfl).2.2.2.2 "hello" true⟩

end CoreService
